import Mathlib

/-!
Shallow embedding of the ESPVFD firmware core (src/src/main.rs).

Strings are modelled as `List Char` (Rust `String` / `&str` at the char
level), with an explicit UTF-8 byte-length function mirroring Rust's
`String::len`.  The render loop of `main` (lines 125-146) is modelled as a
step function from loop state and an optional received payload to the next
state plus the list of externally observable events (display-client power
commands, scrolling-engine constructions, frame writes).
-/

/-- Display frame width of the HCS-12SS59T device: 12 characters. -/
def frameWidth : Nat := 12

/-- The blank-classification character set of the render loop:
`matches!(c, '.' | ',' | ' ')` at main.rs:132. -/
def blankChar (c : Char) : Bool :=
  c == '.' || c == ',' || c == ' '

/-- UTF-8 encoded size in bytes of one character, as Rust counts it. -/
def utf8Size (c : Char) : Nat :=
  if c.toNat < 0x80 then 1
  else if c.toNat < 0x800 then 2
  else if c.toNat < 0x10000 then 3
  else 4

/-- Byte length of a string, mirroring Rust `String::len` (main.rs:140 uses
`t.len()`, a byte count, not a character count). -/
def byteLen (s : List Char) : Nat :=
  (s.map utf8Size).sum

/-- The padding step of the render loop (main.rs:138-142): store the payload
and, if its byte length is below 12, extend with `.` filler characters,
one per missing byte. -/
def padText (t : List Char) : List Char :=
  if byteLen t < 12 then t ++ List.replicate (12 - byteLen t) '.' else t

/-- Modelled from the spec: the `ScrollingText` engine comes from the
external `hcs_12ss59t` crate, whose code is not part of this repository.
Per spec section 4.1 it holds the source text and a cyclic offset. -/
structure ScrollingText where
  source : List Char
  offset : Nat
deriving DecidableEq

/-- Modelled from the spec: `ScrollingText::new` produces an engine ready to
emit frames starting at offset 0 (spec section 4.1, Construct). -/
def ScrollingText.new (text : List Char) : ScrollingText :=
  ⟨text, 0⟩

/-- Modelled from the spec: one cyclic fixed-width window into the source
text, wrapping modulo the source length (spec section 4.1, NextFrame). -/
def cyclicWindow (s : List Char) (off w : Nat) : List Char :=
  (List.range w).map (fun k => s.getD ((off + k) % s.length) '.')

/-- Modelled from the spec: `get_next` emits the current window and advances
the offset by exactly one character, wrapping modulo the source length. -/
def ScrollingText.getNext (sc : ScrollingText) : List Char × ScrollingText :=
  (cyclicWindow sc.source sc.offset frameWidth,
   ⟨sc.source, (sc.offset + 1) % sc.source.length⟩)

/-- Externally observable events of the render loop: display-client power
commands (`vfd.vd_off()` / `vfd.vd_on()`), scrolling-engine constructions
(`ScrollingText::new`), and frame writes (`vfd.display(...)`). -/
inductive Ev where
  | vdOff : Ev
  | vdOn : Ev
  | newEngine : List Char → Ev
  | frameWrite : List Char → Ev
deriving DecidableEq

/-- Whether an event is a frame write to the display client. -/
def Ev.isFrameWrite : Ev → Bool
  | .frameWrite _ => true
  | _ => false

/-- Whether an event is a power-state command to the display client. -/
def Ev.isPowerCmd : Ev → Bool
  | .vdOff => true
  | .vdOn => true
  | _ => false

/-- Whether an event is a scrolling-engine construction. -/
def Ev.isEngineNew : Ev → Bool
  | .newEngine _ => true
  | _ => false

/-- Number of frames written to the display client in an event list. -/
def countFrames (evs : List Ev) : Nat :=
  (evs.filter Ev.isFrameWrite).length

/-- State owned by the render loop: the stored `text` and the `scroller`
(main.rs:125-126). -/
structure LoopState where
  text : List Char
  scroller : ScrollingText
deriving DecidableEq

/-- One iteration of the render loop (main.rs:127-146).  The input is the
result of `rx.recv_timeout(...)`: `some t` when a payload arrived this tick,
`none` on timeout.  Mirrors the source exactly: a payload equal to the
stored text hits `continue` (skipping the frame write); otherwise the
payload is classified blank/non-blank for the power command, the stored
text is replaced by the padded payload, a fresh engine is constructed, and
in every non-`continue` case one frame is pulled and written. -/
def renderTick (st : LoopState) (inp : Option (List Char)) :
    LoopState × List Ev :=
  match inp with
  | none =>
      let out := st.scroller.getNext
      ({ st with scroller := out.2 }, [Ev.frameWrite out.1])
  | some t =>
      if t = st.text then (st, [])
      else
        let powerEv := if t.all blankChar then Ev.vdOff else Ev.vdOn
        let newText := padText t
        let sc0 := ScrollingText.new newText
        let out := sc0.getNext
        ({ text := newText, scroller := out.2 },
         [powerEv, Ev.newEngine newText, Ev.frameWrite out.1])

/-- The loop state just before the render loop starts: `text` is the empty
string and the scroller is constructed from it (main.rs:125-126). -/
def initState : LoopState :=
  { text := [], scroller := ScrollingText.new [] }

/-- Observable events between MQTT initialization and loop entry:
`vfd.vd_off()` at main.rs:123 followed by the initial
`ScrollingText::new(&text, ...)` at main.rs:126 with `text` empty. -/
def preLoopEvents : List Ev :=
  [Ev.vdOff, Ev.newEngine []]

/-- Events emitted by running the render loop over a list of tick inputs. -/
def runLoop : LoopState → List (Option (List Char)) → List Ev
  | _, [] => []
  | st, i :: is =>
      let out := renderTick st i
      out.2 ++ runLoop out.1 is

/-- Per-tick trace of the render loop: for each tick, the state the loop was
in when the tick began, the tick's input, and the events it emitted. -/
def tickTrace : LoopState → List (Option (List Char)) → List (LoopState × Option (List Char) × List Ev)
  | _, [] => []
  | st, i :: is =>
      let out := renderTick st i
      (st, i, out.2) :: tickTrace out.1 is

/-!
Network bring-up progress indicator (`connect_wifi`, main.rs:149-211).
All four waiting stages share the counter `load_i`, which starts at 0 and
after every poll tick is incremented and reduced modulo 12; the rendered
string is `"OOOOOOOOOOOO"` with the byte at index `load_i` replaced by
`"*"` (`replace_range`, here `List.set` since every character is ASCII).
-/

/-- The 12-slot progress string rendered on one poll tick with the marker at
slot `i` (main.rs:164-166 and the identical blocks of the later stages). -/
def progressFrame (i : Nat) : List Char :=
  (List.replicate 12 'O').set i '*'

/-- Value of the `connect_wifi` counter `load_i` at the start of poll tick
`n` (ticks numbered from 0 across all waiting stages, which share the
counter without resetting it): 0 initially, then `(+1) % 12` per tick. -/
def loadAfter : Nat → Nat
  | 0 => 0
  | n + 1 => (loadAfter n + 1) % 12

/-!
MQTT topic construction (main.rs:89-91 and 115-120): the device id is
`format!("{:02X}{:02X}{:02X}", mac[3], mac[4], mac[5])` and the single
subscribed topic is `format!("vfd-{}/", device_id)` followed by
`"set-text"`.
-/

/-- One uppercase hexadecimal digit, as produced by Rust's `{:X}`
formatting for a nibble value. -/
def hexDigit : Nat → Char
  | 0 => '0' | 1 => '1' | 2 => '2' | 3 => '3' | 4 => '4'
  | 5 => '5' | 6 => '6' | 7 => '7' | 8 => '8' | 9 => '9'
  | 10 => 'A' | 11 => 'B' | 12 => 'C' | 13 => 'D' | 14 => 'E'
  | 15 => 'F' | _ => '0'

/-- Rendering of one octet by `{:02X}`: two uppercase hex digits (an octet
is below 256, so zero-padding to width 2 always yields exactly 2 digits). -/
def hexByte (b : Nat) : List Char :=
  [hexDigit (b / 16), hexDigit (b % 16)]

/-- The device id (main.rs:90): uppercase hex of MAC octets 3, 4, 5 with no
separators. -/
def deviceId (b3 b4 b5 : Nat) : List Char :=
  hexByte b3 ++ hexByte b4 ++ hexByte b5

/-- `main_topic` (main.rs:115): the device prefix, a dash, the device id and
a trailing slash. -/
def mainTopic (b3 b4 b5 : Nat) : List Char :=
  "vfd-".data ++ deviceId b3 b4 b5 ++ "/".data

/-- The single topic passed to `mqtt_client.subscribe` (main.rs:116-119). -/
def subscribeTopic (b3 b4 b5 : Nat) : List Char :=
  mainTopic b3 b4 b5 ++ "set-text".data

/-- The sixteen uppercase hexadecimal digit characters. -/
def upperHexChars : List Char :=
  "0123456789ABCDEF".data

/-- Numeric value of one uppercase hexadecimal digit character. -/
def hexCharVal : Char → Nat
  | '0' => 0 | '1' => 1 | '2' => 2 | '3' => 3 | '4' => 4
  | '5' => 5 | '6' => 6 | '7' => 7 | '8' => 8 | '9' => 9
  | 'A' => 10 | 'B' => 11 | 'C' => 12 | 'D' => 13 | 'E' => 14
  | 'F' => 15 | _ => 0

/-- Numeric value of a big-endian string of hexadecimal digits. -/
def hexValue (s : List Char) : Nat :=
  s.foldl (fun a c => 16 * a + hexCharVal c) 0

/-!
MQTT message handling (`handle_mqtt_message`, main.rs:213-222): a message
whose topic contains the substring `"set-text"` has its byte data decoded
by `String::from_utf8_lossy` and sent into the channel; any other message
is ignored and the handler returns `Ok(())`.
-/

/-- Substring containment, mirroring Rust `str::contains` with a string
pattern (the pattern here is ASCII, so byte-level and character-level
containment coincide). -/
def containsSubstr (hay pat : List Char) : Bool :=
  (List.range (hay.length + 1)).any (fun i => pat.isPrefixOf (hay.drop i))

/-- The Unicode replacement character U+FFFD emitted by lossy decoding. -/
def replChar : Char := Char.ofNat 0xFFFD

/-- Whether a byte is a UTF-8 continuation byte (0x80-0xBF). -/
def isCont (b : Nat) : Bool :=
  0x80 ≤ b && b ≤ 0xBF

/-- Valid range of the second byte of a three-byte UTF-8 sequence with lead
byte `b` (0xE0 excludes overlong forms, 0xED excludes surrogates). -/
def cont2of3 (b c : Nat) : Bool :=
  if b = 0xE0 then 0xA0 ≤ c && c ≤ 0xBF
  else if b = 0xED then 0x80 ≤ c && c ≤ 0x9F
  else isCont c

/-- Valid range of the second byte of a four-byte UTF-8 sequence with lead
byte `b` (0xF0 excludes overlong forms, 0xF4 caps at U+10FFFF). -/
def cont2of4 (b c : Nat) : Bool :=
  if b = 0xF0 then 0x90 ≤ c && c ≤ 0xBF
  else if b = 0xF4 then 0x80 ≤ c && c ≤ 0x8F
  else isCont c

/-- UTF-8 lossy decoding of a byte sequence, mirroring Rust's
`String::from_utf8_lossy`: valid sequences decode to their scalar values
and each maximal invalid subpart is replaced by one U+FFFD replacement
character; decoding never fails. -/
def utf8Lossy : List Nat → List Char
  | [] => []
  | b :: rest =>
      if b < 0x80 then Char.ofNat b :: utf8Lossy rest
      else if b < 0xC2 then replChar :: utf8Lossy rest
      else if b ≤ 0xDF then
        match rest with
        | [] => [replChar]
        | c :: r =>
            if isCont c then
              Char.ofNat ((b - 0xC0) * 64 + (c - 0x80)) :: utf8Lossy r
            else replChar :: utf8Lossy (c :: r)
      else if b ≤ 0xEF then
        match rest with
        | [] => [replChar]
        | c1 :: r1 =>
            if cont2of3 b c1 then
              match r1 with
              | [] => [replChar]
              | c2 :: r2 =>
                  if isCont c2 then
                    Char.ofNat (((b - 0xE0) * 64 + (c1 - 0x80)) * 64 + (c2 - 0x80))
                      :: utf8Lossy r2
                  else replChar :: utf8Lossy (c2 :: r2)
            else replChar :: utf8Lossy (c1 :: r1)
      else if b ≤ 0xF4 then
        match rest with
        | [] => [replChar]
        | c1 :: r1 =>
            if cont2of4 b c1 then
              match r1 with
              | [] => [replChar]
              | c2 :: r2 =>
                  if isCont c2 then
                    match r2 with
                    | [] => [replChar]
                    | c3 :: r3 =>
                        if isCont c3 then
                          Char.ofNat ((((b - 0xF0) * 64 + (c1 - 0x80)) * 64
                            + (c2 - 0x80)) * 64 + (c3 - 0x80)) :: utf8Lossy r3
                        else replChar :: utf8Lossy (c3 :: r3)
                  else replChar :: utf8Lossy (c2 :: r2)
            else replChar :: utf8Lossy (c1 :: r1)
      else replChar :: utf8Lossy rest

/-- An inbound MQTT message at the handler boundary: an optional topic
(`message.topic()`) and the raw payload bytes (`message.data()`). -/
structure MqttMessage where
  topic : Option (List Char)
  data : List Nat

/-- The pattern string checked by `topic.contains("set-text")`. -/
def setTextPat : List Char :=
  "set-text".data

/-- Sending into the Message Bridge (`tx.send`): appends to the queue when
the consumer is alive, fails when the channel is closed. -/
def sendToBridge (chOpen : Bool) (q : List (List Char)) (p : List Char) :
    Except Unit (List (List Char)) :=
  if chOpen then .ok (q ++ [p]) else .error ()

/-- `handle_mqtt_message` (main.rs:213-222) acting on the bridge queue `q`:
if the message has a topic containing `"set-text"`, its data is decoded
lossily and sent; otherwise the message is dropped and the handler
returns successfully. -/
def handle_mqtt_message (chOpen : Bool) (m : MqttMessage)
    (q : List (List Char)) : Except Unit (List (List Char)) :=
  match m.topic with
  | some tp =>
      if containsSubstr tp setTextPat then
        sendToBridge chOpen q (utf8Lossy m.data)
      else .ok q
  | none => .ok q

/-!
Helper lemmas.
-/

theorem byteLen_append (a b : List Char) :
    byteLen (a ++ b) = byteLen a + byteLen b := by
  simp [byteLen]

theorem byteLen_replicate_dot (n : Nat) :
    byteLen (List.replicate n '.') = n := by
  have h1 : utf8Size '.' = 1 := rfl
  simp [byteLen, List.map_replicate, h1, List.sum_replicate]

theorem padText_of_long (t : List Char) (h : 12 ≤ byteLen t) :
    padText t = t := by
  simp [padText, Nat.not_lt.mpr h]

theorem padText_of_short (t : List Char) (h : byteLen t < 12) :
    padText t = t ++ List.replicate (12 - byteLen t) '.' := by
  simp [padText, h]

theorem byteLen_padText (t : List Char) : 12 ≤ byteLen (padText t) := by
  by_cases h : byteLen t < 12
  · rw [padText_of_short t h, byteLen_append, byteLen_replicate_dot]
    omega
  · rw [padText_of_long t (Nat.le_of_not_lt h)]
    omega

theorem byteLen_ne_nil (s : List Char) (h : 12 ≤ byteLen s) : s ≠ [] := by
  intro hnil
  subst hnil
  simp [byteLen] at h

theorem byteLen_of_ascii (t : List Char)
    (h : ∀ c ∈ t, c.toNat < 0x80) : byteLen t = t.length := by
  induction t with
  | nil => rfl
  | cons c cs ih =>
      have hc : utf8Size c = 1 := by
        unfold utf8Size
        simp [h c (List.mem_cons_self c cs)]
      have hcs : byteLen cs = cs.length := ih (fun x hx => h x (List.mem_cons_of_mem c hx))
      simp [byteLen, List.map_cons, hc] at hcs ⊢
      omega

theorem isPrefixOf_append_self (a b : List Char) :
    a.isPrefixOf (a ++ b) = true := by
  induction a with
  | nil => simp [List.isPrefixOf]
  | cons c cs ih => simp [List.isPrefixOf, ih]

theorem renderTick_accept_text (st : LoopState) (t : List Char)
    (hacc : t ≠ st.text) :
    (renderTick st (some t)).1.text = padText t := by
  simp [renderTick, if_neg hacc]

/-!
Claim theorems.
-/

/-- Claim C1, counterexample: the payload "HI" (shorter than FRAME_WIDTH)
is accepted from the initial state, and delivering "HI" again as the very
next payload does cause a second scrolling-engine construction and a
power-state command, because the duplicate check compares the raw payload
against the padded stored text. -/
theorem C1_counterexample :
    (['H', 'I'] ≠ initState.text)
  ∧ Ev.newEngine (padText ['H', 'I']) ∈
      (renderTick (renderTick initState (some ['H', 'I'])).1 (some ['H', 'I'])).2
  ∧ Ev.vdOn ∈
      (renderTick (renderTick initState (some ['H', 'I'])).1 (some ['H', 'I'])).2 := by
  decide

/-- Claim C1, amended: for every payload P of byte length at least
FRAME_WIDTH (so that padding leaves it unchanged), if P is delivered and
accepted and then P is delivered again as the very next payload, the second
delivery causes no second engine construction and no power-state command.
Payloads shorter than FRAME_WIDTH are excluded: for those the second
delivery is accepted again (see the counterexample). -/
theorem C1_idempotent_amended (st : LoopState) (P : List Char)
    (hacc : P ≠ st.text) (hlen : 12 ≤ byteLen P) :
    ((renderTick (renderTick st (some P)).1 (some P)).2.filter Ev.isEngineNew = []
  ∧ (renderTick (renderTick st (some P)).1 (some P)).2.filter Ev.isPowerCmd = []) := by
  have hpad : padText P = P := padText_of_long P hlen
  have h1 : (renderTick st (some P)).1.text = P := by
    rw [renderTick_accept_text st P hacc, hpad]
  have h2 : (renderTick (renderTick st (some P)).1 (some P)).2 = [] := by
    generalize hq : (renderTick st (some P)).1 = st1 at h1 ⊢
    simp only [renderTick]
    rw [if_pos h1.symm]
  rw [h2]
  exact ⟨rfl, rfl⟩

/-- Witness for C1_idempotent_amended at the concrete 12-byte payload
"ABCDEFGHIJKL" delivered twice from the initial state. -/
theorem C1_witness :
    ((renderTick (renderTick initState
        (some ['A', 'B', 'C', 'D', 'E', 'F', 'G', 'H', 'I', 'J', 'K', 'L'])).1
        (some ['A', 'B', 'C', 'D', 'E', 'F', 'G', 'H', 'I', 'J', 'K', 'L'])).2.filter
        Ev.isEngineNew = []
  ∧ (renderTick (renderTick initState
        (some ['A', 'B', 'C', 'D', 'E', 'F', 'G', 'H', 'I', 'J', 'K', 'L'])).1
        (some ['A', 'B', 'C', 'D', 'E', 'F', 'G', 'H', 'I', 'J', 'K', 'L'])).2.filter
        Ev.isPowerCmd = []) :=
  C1_idempotent_amended initState
    ['A', 'B', 'C', 'D', 'E', 'F', 'G', 'H', 'I', 'J', 'K', 'L']
    (by decide) (by decide)

/-- Claim C2, counterexample: on a tick whose arrived payload equals the
currently stored text (here the empty payload against the initial empty
text), the loop hits `continue` and writes no frame, so it is not the case
that exactly one frame is written on every iteration. -/
theorem C2_counterexample :
    countFrames (renderTick initState (some ([] : List Char))).2 ≠ 1
  ∧ ([] : List Char) = initState.text := by
  decide

/-- Claim C2, amended: on a tick with no payload, or with an accepted
payload, exactly one frame is pulled and written; on a tick whose payload
equals the stored text the `continue` skips the frame write, so zero
frames are written. -/
theorem C2_frames_amended (st : LoopState) (inp : Option (List Char)) :
    countFrames (renderTick st inp).2 =
      match inp with
      | none => 1
      | some t => if t = st.text then 0 else 1 := by
  match inp with
  | none => simp [renderTick, countFrames, Ev.isFrameWrite]
  | some t =>
      by_cases h : t = st.text
      · simp [renderTick, h, countFrames]
      · by_cases hb : t.all blankChar
        · simp [renderTick, if_neg h, h, hb, countFrames, Ev.isFrameWrite]
        · simp [renderTick, if_neg h, h, hb, countFrames, Ev.isFrameWrite]

/-- Claim C3, counterexample: the initial scrolling-engine construction
(main.rs:126) passes the empty string as source, so it is not the case
that every construction site passes a non-empty source text. -/
theorem C3_counterexample :
    Ev.newEngine [] ∈ preLoopEvents ∧ ([] : List Char).length = 0 := by
  decide

/-- Claim C3, amended: every scrolling-engine construction performed inside
the render loop passes a source of byte length at least FRAME_WIDTH, hence
non-empty (the payload having been right-padded with '.'); only the
initial pre-loop construction (main.rs:126) passes the empty string. -/
theorem C3_nonempty_amended (st : LoopState) (inp : Option (List Char))
    (s : List Char) (h : Ev.newEngine s ∈ (renderTick st inp).2) :
    12 ≤ byteLen s ∧ s ≠ [] := by
  have hs : s = padText (inp.getD []) := by
    match inp with
    | none => simp [renderTick] at h
    | some t =>
        by_cases ht : t = st.text
        · simp [renderTick, ht] at h
        · by_cases hb : t.all blankChar <;>
            simp [renderTick, if_neg ht, hb] at h <;>
            simp [h]
  have hlen : 12 ≤ byteLen s := hs ▸ byteLen_padText _
  exact ⟨hlen, byteLen_ne_nil s hlen⟩

/-- Witness for C3_nonempty_amended: the engine constructed when "HELLO"
is accepted from the initial state has the padded source
"HELLO.......", of byte length 12 and non-empty. -/
theorem C3_witness :
    12 ≤ byteLen ['H', 'E', 'L', 'L', 'O', '.', '.', '.', '.', '.', '.', '.']
  ∧ ['H', 'E', 'L', 'L', 'O', '.', '.', '.', '.', '.', '.', '.'] ≠ [] :=
  C3_nonempty_amended initState (some ['H', 'E', 'L', 'L', 'O'])
    ['H', 'E', 'L', 'L', 'O', '.', '.', '.', '.', '.', '.', '.'] (by decide)

/-- Claim C4, counterexample: the payload consisting of the single
character U+00E9 (2 UTF-8 bytes) is accepted and shorter than FRAME_WIDTH
in bytes, yet the stored text after padding has 11 characters, not
FRAME_WIDTH characters: padding counts bytes (`t.len()`), not characters. -/
theorem C4_counterexample :
    [Char.ofNat 233] ≠ initState.text
  ∧ byteLen [Char.ofNat 233] < 12
  ∧ (renderTick initState (some [Char.ofNat 233])).1.text.length ≠ 12 := by
  decide

/-- Claim C4, amended: for every accepted payload T of byte length below
FRAME_WIDTH, the stored text after right-padding has byte length exactly
FRAME_WIDTH, the appended characters are all the filler '.', the original
payload is an unchanged prefix, and when T is ASCII its character length
is also exactly FRAME_WIDTH (for non-ASCII payloads the character count
falls short, as the counterexample shows). -/
theorem C4_padding_amended (st : LoopState) (T : List Char)
    (hacc : T ≠ st.text) (hshort : byteLen T < 12) :
    byteLen (renderTick st (some T)).1.text = 12
  ∧ T.isPrefixOf (renderTick st (some T)).1.text = true
  ∧ (∀ c ∈ (renderTick st (some T)).1.text.drop T.length, c = '.')
  ∧ ((∀ c ∈ T, c.toNat < 0x80) → (renderTick st (some T)).1.text.length = 12) := by
  have htext : (renderTick st (some T)).1.text =
      T ++ List.replicate (12 - byteLen T) '.' := by
    rw [renderTick_accept_text st T hacc, padText_of_short T hshort]
  rw [htext]
  refine ⟨?_, ?_, ?_, ?_⟩
  · rw [byteLen_append, byteLen_replicate_dot]
    omega
  · exact isPrefixOf_append_self _ _
  · intro c hc
    rw [List.drop_left] at hc
    exact List.eq_of_mem_replicate hc
  · intro hascii
    have hbl : byteLen T = T.length := byteLen_of_ascii T hascii
    simp [List.length_append, List.length_replicate]
    omega

/-- Witness for C4_padding_amended at the concrete payload "HI" accepted
from the initial state. -/
theorem C4_witness :
    byteLen (renderTick initState (some ['H', 'I'])).1.text = 12
  ∧ ['H', 'I'].isPrefixOf (renderTick initState (some ['H', 'I'])).1.text = true
  ∧ (∀ c ∈ (renderTick initState (some ['H', 'I'])).1.text.drop ['H', 'I'].length, c = '.')
  ∧ ((∀ c ∈ ['H', 'I'], c.toNat < 0x80) →
      (renderTick initState (some ['H', 'I'])).1.text.length = 12) :=
  C4_padding_amended initState ['H', 'I'] (by decide) (by decide)

/-- Claim C5: for every accepted payload that differs from the stored text,
the render loop issues exactly one power-state command: power-off when
every character of the payload is in the blank set (space, '.', ','), and
power-on when at least one character is outside that set. -/
theorem C5_blank_classification (st : LoopState) (t : List Char)
    (hacc : t ≠ st.text) :
    (renderTick st (some t)).2.filter Ev.isPowerCmd =
      [if t.all blankChar then Ev.vdOff else Ev.vdOn] := by
  by_cases hb : t.all blankChar
  · simp [renderTick, if_neg hacc, hb, Ev.isPowerCmd]
  · simp [renderTick, if_neg hacc, hb, Ev.isPowerCmd]

/-- Witness for C5_blank_classification at the concrete non-blank payload
"HELLO" accepted from the initial state. -/
theorem C5_witness :
    (renderTick initState (some ['H', 'E', 'L', 'L', 'O'])).2.filter Ev.isPowerCmd =
      [if ['H', 'E', 'L', 'L', 'O'].all blankChar then Ev.vdOff else Ev.vdOn] :=
  C5_blank_classification initState ['H', 'E', 'L', 'L', 'O'] (by decide)

/-- Claim C6: at every poll tick of network bring-up, the loop counter is
within [0, 12), equals the tick number modulo 12, advances by exactly one
slot (wrapping modulo 12) on the next tick, and the rendered 12-character
progress string holds exactly one '*' marker and eleven 'O' slots. -/
theorem C6_progress_indicator (n : Nat) :
    loadAfter n < 12
  ∧ loadAfter n = n % 12
  ∧ loadAfter (n + 1) = (loadAfter n + 1) % 12
  ∧ (progressFrame (loadAfter n)).length = 12
  ∧ (progressFrame (loadAfter n)).count '*' = 1
  ∧ (progressFrame (loadAfter n)).count 'O' = 11 := by
  have hmod : ∀ m, loadAfter m = m % 12 := by
    intro m
    induction m with
    | zero => rfl
    | succ k ih =>
        show (loadAfter k + 1) % 12 = (k + 1) % 12
        rw [ih]
        omega
  have hlt : loadAfter n < 12 := by
    rw [hmod n]
    exact Nat.mod_lt n (by norm_num)
  have key : ∀ i, i < 12 →
      (progressFrame i).length = 12 ∧
      (progressFrame i).count '*' = 1 ∧
      (progressFrame i).count 'O' = 11 := by
    intro i hi
    interval_cases i <;> refine ⟨rfl, by decide, by decide⟩
  exact ⟨hlt, hmod n, rfl, (key _ hlt).1, (key _ hlt).2.1, (key _ hlt).2.2⟩

/-- Numeric value of one uppercase hex digit, inverse to `hexDigit` on
nibble values. -/
theorem hexCharVal_hexDigit (n : Nat) (h : n < 16) :
    hexCharVal (hexDigit n) = n := by
  interval_cases n <;> rfl

/-- Every `hexDigit` of a nibble value is an uppercase hex character. -/
theorem hexDigit_mem (n : Nat) (h : n < 16) :
    hexDigit n ∈ upperHexChars := by
  interval_cases n <;> decide

/-- Claim C7: the single subscribed topic is the device prefix "vfd-",
the device id, and "/set-text", where the device id is 6 uppercase hex
characters whose value is the big-endian reading of MAC octets 3, 4, 5
(the uppercase hexadecimal rendering with no separators). -/
theorem C7_topic (b3 b4 b5 : Nat) (h3 : b3 < 256) (h4 : b4 < 256)
    (h5 : b5 < 256) :
    subscribeTopic b3 b4 b5 = "vfd-".data ++ deviceId b3 b4 b5 ++ "/set-text".data
  ∧ (deviceId b3 b4 b5).length = 6
  ∧ (∀ c ∈ deviceId b3 b4 b5, c ∈ upperHexChars)
  ∧ hexValue (deviceId b3 b4 b5) = (b3 * 256 + b4) * 256 + b5 := by
  have hdev : deviceId b3 b4 b5 =
      [hexDigit (b3 / 16), hexDigit (b3 % 16), hexDigit (b4 / 16),
       hexDigit (b4 % 16), hexDigit (b5 / 16), hexDigit (b5 % 16)] := by
    simp [deviceId, hexByte]
  have hb : ∀ b : Nat, b < 256 → ∀ c ∈ hexByte b, c ∈ upperHexChars := by
    intro b hblt c hc
    simp only [hexByte, List.mem_cons, List.not_mem_nil, or_false] at hc
    rcases hc with h | h <;> subst h <;> exact hexDigit_mem _ (by omega)
  refine ⟨?_, ?_, ?_, ?_⟩
  · have hsep : ("/".data : List Char) ++ "set-text".data = "/set-text".data := rfl
    rw [subscribeTopic, mainTopic, List.append_assoc, List.append_assoc, hsep,
      List.append_assoc]
  · rw [hdev]
    rfl
  · intro c hc
    simp only [deviceId, List.mem_append] at hc
    rcases hc with (h | h) | h
    exacts [hb b3 h3 c h, hb b4 h4 c h, hb b5 h5 c h]
  · have e1 : hexCharVal (hexDigit (b3 / 16)) = b3 / 16 :=
      hexCharVal_hexDigit _ (by omega)
    have e2 : hexCharVal (hexDigit (b3 % 16)) = b3 % 16 :=
      hexCharVal_hexDigit _ (by omega)
    have e3 : hexCharVal (hexDigit (b4 / 16)) = b4 / 16 :=
      hexCharVal_hexDigit _ (by omega)
    have e4 : hexCharVal (hexDigit (b4 % 16)) = b4 % 16 :=
      hexCharVal_hexDigit _ (by omega)
    have e5 : hexCharVal (hexDigit (b5 / 16)) = b5 / 16 :=
      hexCharVal_hexDigit _ (by omega)
    have e6 : hexCharVal (hexDigit (b5 % 16)) = b5 % 16 :=
      hexCharVal_hexDigit _ (by omega)
    rw [hdev]
    simp only [hexValue, List.foldl, e1, e2, e3, e4, e5, e6]
    omega

/-- Witness for C7_topic at the concrete MAC tail octets 0x1A, 0xAB, 0xCD. -/
theorem C7_witness :
    subscribeTopic 26 171 205 = "vfd-".data ++ deviceId 26 171 205 ++ "/set-text".data
  ∧ (deviceId 26 171 205).length = 6
  ∧ (∀ c ∈ deviceId 26 171 205, c ∈ upperHexChars)
  ∧ hexValue (deviceId 26 171 205) = (26 * 256 + 171) * 256 + 205 :=
  C7_topic 26 171 205 (by decide) (by decide) (by decide)

/-- Claim C8: with the bridge consumer alive, a delivered message is
forwarded into the Message Bridge exactly when it has a topic containing
the substring "set-text", the forwarded payload being the lossy UTF-8
decoding of the message bytes appended to the queue; a message without a
topic or with a non-matching topic leaves the queue unchanged and the
handler still returns success. -/
theorem C8_handler (m : MqttMessage) (q : List (List Char)) :
    ((∃ tp, m.topic = some tp ∧ containsSubstr tp setTextPat = true) →
        handle_mqtt_message true m q = Except.ok (q ++ [utf8Lossy m.data]))
  ∧ ((∀ tp, m.topic = some tp → containsSubstr tp setTextPat = false) →
        handle_mqtt_message true m q = Except.ok q) := by
  constructor
  · rintro ⟨tp, htp, hc⟩
    simp [handle_mqtt_message, htp, hc, sendToBridge]
  · intro hno
    match h : m.topic with
    | none => simp [handle_mqtt_message, h]
    | some tp => simp [handle_mqtt_message, h, hno tp h]

/-- Witness for C8_handler: a message on the topic "vfd-A1B2C3/set-text"
with payload bytes "HI" is appended to an empty queue. -/
theorem C8_witness :
    handle_mqtt_message true ⟨some "vfd-A1B2C3/set-text".data, [72, 73]⟩ [] =
      Except.ok ([] ++ [utf8Lossy [72, 73]]) :=
  (C8_handler ⟨some "vfd-A1B2C3/set-text".data, [72, 73]⟩ []).1
    ⟨"vfd-A1B2C3/set-text".data, rfl, by decide⟩

/-- Claim C9: an empty payload delivered while it differs from the stored
text is classified blank (the all-characters check holds vacuously): the
only power command issued is power-off, and power-on is never issued. -/
theorem C9_empty_blank (st : LoopState) (hacc : ([] : List Char) ≠ st.text) :
    (renderTick st (some ([] : List Char))).2.filter Ev.isPowerCmd = [Ev.vdOff]
  ∧ Ev.vdOn ∉ (renderTick st (some ([] : List Char))).2 := by
  have hacc' : st.text ≠ [] := fun h => hacc h.symm
  constructor
  · simp [renderTick, hacc', Ev.isPowerCmd]
  · simp [renderTick, hacc']

/-- Witness for C9_empty_blank: the empty payload arriving after "HI" has
been accepted (the stored text is then "HI..........", non-empty). -/
theorem C9_witness :
    (renderTick (renderTick initState (some ['H', 'I'])).1
        (some ([] : List Char))).2.filter Ev.isPowerCmd = [Ev.vdOff]
  ∧ Ev.vdOn ∉ (renderTick (renderTick initState (some ['H', 'I'])).1
        (some ([] : List Char))).2 :=
  C9_empty_blank (renderTick initState (some ['H', 'I'])).1 (by decide)

/-- Render-tick events on a tick whose payload, if any, is all-blank: no
power-on command is issued, and one frame is written unless the payload
equals the stored text (the `continue` case, which writes nothing). -/
theorem renderTick_blank_events (st : LoopState) (i : Option (List Char))
    (hb : ∀ t, i = some t → t.all blankChar = true) :
    Ev.vdOn ∉ (renderTick st i).2
  ∧ countFrames (renderTick st i).2 = (if i = some st.text then 0 else 1) := by
  match i with
  | none => simp [renderTick, countFrames, Ev.isFrameWrite]
  | some t =>
      by_cases ht : t = st.text
      · subst ht
        simp [renderTick, countFrames]
      · have hblank : t.all blankChar = true := hb t rfl
        have hne : some t ≠ some st.text := fun h => ht (Option.some.inj h)
        constructor
        · simp [renderTick, if_neg ht, hblank]
        · simp [renderTick, if_neg ht, hblank, hne, countFrames, Ev.isFrameWrite]

/-- The run-loop events are the concatenation of the per-tick events. -/
theorem runLoop_eq_tickTrace (st : LoopState) (inps : List (Option (List Char))) :
    runLoop st inps = ((tickTrace st inps).map (fun e => e.2.2)).flatten := by
  induction inps generalizing st with
  | nil => simp [runLoop, tickTrace]
  | cons i is ih => simp [runLoop, tickTrace, ih]

/-- Claim C10, counterexample: with the stored text initially empty, an
empty payload delivered on the first tick equals the stored text, so the
loop hits `continue` and writes no frame on that tick — refuting the part
of the claim that frames continue to be written on every tick before the
first non-blank payload. -/
theorem C10_counterexample :
    countFrames (runLoop initState [some ([] : List Char)]) = 0
  ∧ [some ([] : List Char)].length = 1 := by
  decide

/-- Claim C10, amended: the display power is commanded off immediately
before the render loop starts (the only pre-loop power command of the
post-MQTT-init sequence), and as long as every delivered payload is
all-blank, power-on is never commanded; on every such tick one frame is
written, except on a tick whose payload equals the stored text, where the
`continue` writes nothing. -/
theorem C10_power_amended (inps : List (Option (List Char)))
    (hblank : ∀ t, some t ∈ inps → t.all blankChar = true) :
    preLoopEvents.filter Ev.isPowerCmd = [Ev.vdOff]
  ∧ Ev.vdOn ∉ runLoop initState inps
  ∧ ∀ e ∈ tickTrace initState inps,
      Ev.vdOn ∉ e.2.2
      ∧ countFrames e.2.2 = (if e.2.1 = some e.1.text then 0 else 1) := by
  refine ⟨rfl, ?_, ?_⟩
  · rw [runLoop_eq_tickTrace]
    intro hmem
    rw [List.mem_flatten] at hmem
    obtain ⟨l, hl, hevl⟩ := hmem
    rw [List.mem_map] at hl
    obtain ⟨e, he, rfl⟩ := hl
    have key : ∀ st' inps', (∀ t, some t ∈ inps' → t.all blankChar = true) →
        ∀ e' ∈ tickTrace st' inps', Ev.vdOn ∉ e'.2.2 := by
      intro st' inps'
      induction inps' generalizing st' with
      | nil => intro _ e' he'; simp [tickTrace] at he'
      | cons i is ih =>
          intro hbl e' he'
          simp only [tickTrace, List.mem_cons] at he'
          rcases he' with rfl | he'
          · exact (renderTick_blank_events st' i
              (fun t hti => hbl t (hti ▸ List.mem_cons_self i is))).1
          · exact ih (renderTick st' i).1
              (fun t hti => hbl t (List.mem_cons_of_mem i hti)) e' he'
    exact key initState inps hblank e he hevl
  · have key : ∀ st' inps', (∀ t, some t ∈ inps' → t.all blankChar = true) →
        ∀ e' ∈ tickTrace st' inps',
          Ev.vdOn ∉ e'.2.2
          ∧ countFrames e'.2.2 = (if e'.2.1 = some e'.1.text then 0 else 1) := by
      intro st' inps'
      induction inps' generalizing st' with
      | nil => intro _ e' he'; simp [tickTrace] at he'
      | cons i is ih =>
          intro hbl e' he'
          simp only [tickTrace, List.mem_cons] at he'
          rcases he' with rfl | he'
          · exact renderTick_blank_events st' i
              (fun t hti => hbl t (hti ▸ List.mem_cons_self i is))
          · exact ih (renderTick st' i).1
              (fun t hti => hbl t (List.mem_cons_of_mem i hti)) e' he'
    exact key initState inps hblank

/-- Witness for C10_power_amended on the concrete input sequence of one
blank payload " " followed by a quiet tick. -/
theorem C10_witness :
    preLoopEvents.filter Ev.isPowerCmd = [Ev.vdOff]
  ∧ Ev.vdOn ∉ runLoop initState [some [' '], none]
  ∧ ∀ e ∈ tickTrace initState [some [' '], none],
      Ev.vdOn ∉ e.2.2
      ∧ countFrames e.2.2 = (if e.2.1 = some e.1.text then 0 else 1) :=
  C10_power_amended [some [' '], none] (by
    intro t ht
    simp only [List.mem_cons, List.not_mem_nil, or_false] at ht
    rcases ht with h | h
    · rw [Option.some.inj h]
      rfl
    · exact Option.noConfusion h)
